import Mathlib

set_option maxRecDepth 8000

/-!
Shallow embedding of `src/mrz_extractor.py` (MRZ interpretation pipeline):
check-digit engine, line normalizer, candidate detector, format classifier,
the three fixed-width field parsers (TD1/TD2/TD3), confidence scorer and
dispatcher.  Python strings are modelled as Lean `String` (lists of
characters); fallible indexing returns `Option`; raised `ValueError`s become
an explicit error type.
-/

namespace Mrz

/-! ### Python string primitives -/

/-- Python slice `s[a:b]` (0-indexed, end-exclusive, clipped to the string). -/
def pySlice (s : String) (a b : Nat) : String :=
  String.mk ((s.toList.drop a).take (b - a))

/-- Python slice `s[a:]`. -/
def pySliceFrom (s : String) (a : Nat) : String :=
  String.mk (s.toList.drop a)

/-- Python single-character index `s[i]`: `none` models an `IndexError`. -/
def pyGet (s : String) (i : Nat) : Option Char :=
  s.toList.get? i

/-- The character at index `i` (only used where `i` is known in bounds). -/
def chAt (s : String) (i : Nat) : Char :=
  s.toList.getD i ' '

/-- Python `s.ljust(w, c)`: pad on the right to width `w`, never truncate. -/
def ljust (s : String) (w : Nat) (c : Char) : String :=
  s ++ String.mk (List.replicate (w - s.length) c)

/-- Python `s.count(c)` for a single-character needle. -/
def countChar (s : String) (c : Char) : Nat :=
  s.toList.count c

/-- Python `s.strip()`: drop leading and trailing whitespace. -/
def stripStr (s : String) : String :=
  String.mk (((s.toList.dropWhile Char.isWhitespace).reverse.dropWhile
      Char.isWhitespace).reverse)

/-- Python `s.startswith(pre)`. -/
def pyStartsWith (s pre : String) : Bool :=
  pre.toList.isPrefixOf s.toList

/-- Python `str.isdigit()` on one character (ASCII `0`-`9`; codes 48-57). -/
def isDig (c : Char) : Bool :=
  48 ≤ c.toNat && c.toNat ≤ 57

/-- Splitter for the fixed separator `"<<"`: leftmost, non-overlapping
occurrences, like Python `s.split("<<")` (working on the character list;
`acc` holds the current piece reversed). -/
def splitLtLt : List Char → List Char → List (List Char)
  | '<' :: '<' :: rest, acc => acc.reverse :: splitLtLt rest []
  | c :: rest, acc => splitLtLt rest (c :: acc)
  | [], acc => [acc.reverse]

/-- Python `s.split("<<")`. -/
def pySplit2 (s : String) : List String :=
  (splitLtLt s.toList []).map String.mk

/-- Join pieces back with `"<<"` (used to model `split("<<", 1)`). -/
def joinSep : List String → String
  | [] => ""
  | [x] => x
  | x :: xs => x ++ "<<" ++ joinSep xs

/-- Python `s.split("<<", 1)`: at most one split, at the first occurrence. -/
def pySplit2First (s : String) : List String :=
  match pySplit2 s with
  | [] => [s]
  | [x] => [x]
  | x :: rest => [x, joinSep rest]

/-- Newline splitter (models Python `str.splitlines` for `"\n"`-separated
text; a trailing `"\r"` of a `"\r\n"` pair is later removed by `stripStr`). -/
def splitNl : List Char → List Char → List (List Char)
  | '\n' :: rest, acc => acc.reverse :: splitNl rest []
  | c :: rest, acc => splitNl rest (c :: acc)
  | [], acc => [acc.reverse]

/-- Python `text.splitlines()`. -/
def pySplitLines (s : String) : List String :=
  (splitNl s.toList []).map String.mk

/-! ### ICAO check digit helpers (`mrz_char_value`, `mrz_check_digit`) -/

/-- `mrz_char_value`: digit its value, `A`-`Z` (codes 65-90) alphabet
position plus 10, filler `<` and everything else 0. -/
def mrz_char_value (c : Char) : Nat :=
  if isDig c then c.toNat - 48
  else if 65 ≤ c.toNat && c.toNat ≤ 90 then c.toNat - 65 + 10
  else if c == '<' then 0
  else 0

/-- `mrz_check_digit`: weighted sum with weights `[7, 3, 1]` cycling by
position, modulo 10, rendered as one decimal digit. -/
def mrz_check_digit (field : String) : String :=
  let weights : List Nat := [7, 3, 1]
  toString ((field.toList.enum.foldl
    (fun total ic => total + mrz_char_value ic.2 * weights.getD (ic.1 % 3) 0) 0) % 10)

/-! ### OCR auto-correction (`normalize_mrz_line`) -/

/-- Character class kept by `re.sub(r"[^A-Z0-9<]", "", ...)`:
`A`-`Z` (codes 65-90), `0`-`9` (codes 48-57) and the filler `<` (code 60). -/
def keepMrz (c : Char) : Bool :=
  (65 ≤ c.toNat && c.toNat ≤ 90) || (48 ≤ c.toNat && c.toNat ≤ 57) || c.toNat == 60

/-- One step of `smart_fix`: when the character to the left is a digit,
apply the fixed table O→0, I→1, B→8, S→5; otherwise leave `c` alone. -/
def subOne (prev c : Char) : Char :=
  if c == 'O' && isDig prev then '0'
  else if c == 'I' && isDig prev then '1'
  else if c == 'B' && isDig prev then '8'
  else if c == 'S' && isDig prev then '5'
  else c

/-- The in-place loop of `smart_fix`: `prev` is the character now standing
immediately to the left (substitutions already applied, as with the Python
list mutation), so corrections cascade through digit runs. -/
def smartFixGo : Char → List Char → List Char
  | _, [] => []
  | prev, c :: cs => subOne prev c :: smartFixGo (subOne prev c) cs

/-- `smart_fix`: the first character has no left context and is never
substituted. -/
def smart_fix (s : List Char) : List Char :=
  match s with
  | [] => []
  | c :: cs => c :: smartFixGo c cs

/-- `normalize_mrz_line`: uppercase, strip everything outside `A-Z0-9<`,
then apply the digit-context substitution table O→0, I→1, B→8, S→5. -/
def normalize_mrz_line (line : String) : String :=
  String.mk (smart_fix ((line.toList.map Char.toUpper).filter keepMrz))

/-! ### Errors (the distinct `ValueError`s raised by the module) -/

/-- The failure conditions of the pipeline.  `indexError` models a Python
`IndexError`/unpacking failure inside a field parser (never reached when the
parsers receive the arity the dispatcher guarantees). -/
inductive MrzError where
  | noCandidates
  | insufficientLines
  | unsupportedLayout
  | indexError
deriving DecidableEq

/-! ### Candidate detection (`extract_mrz_from_ocr_text`, first half) -/

/-- The candidate loop: per raw line, strip whitespace, skip blank lines,
normalize, keep iff at least two fillers and length at least 25. -/
def extract_candidates (text : String) : List String :=
  (pySplitLines text).foldr
    (fun ln acc =>
      let t := stripStr ln
      if t == "" then acc
      else
        let n := normalize_mrz_line t
        if 2 ≤ countChar n '<' && 25 ≤ n.length then n :: acc else acc)
    []

/-- Stable insertion into a list sorted by descending length (an earlier
element stays in front of later elements of equal length). -/
def insertDesc (x : String) : List String → List String
  | [] => [x]
  | y :: ys => if y.length ≤ x.length then x :: y :: ys else y :: insertDesc x ys

/-- Stable sort by descending length: extensionally equal to Python
`sorted(l, key=lambda x: -len(x))` (both are stable). -/
def sortDesc : List String → List String
  | [] => []
  | x :: xs => insertDesc x (sortDesc xs)

/-- The shared tail of the classifier: no usable `P<` pair, so take the two
longest candidates, or fail when fewer than two exist. -/
def classifyFallback (candidates : List String) : Except MrzError (List String) :=
  if 2 ≤ candidates.length then .ok ((sortDesc candidates).take 2)
  else .error .insufficientLines

/-- The classification half of `extract_mrz_from_ocr_text`: TD1 when at
least three candidates have length 28-36; else the first `P<` candidate
plus the longest other candidate; else the two longest candidates. -/
def classify_candidates (candidates : List String) : Except MrzError (List String) :=
  let td1 := candidates.filter (fun c => 28 ≤ c.length && c.length ≤ 36)
  if 3 ≤ td1.length then .ok (td1.take 3)
  else
    match candidates.find? (fun c => pyStartsWith c "P<") with
    | some line1 =>
      -- `others = [c for c in candidates if c != line1]` removes every
      -- candidate equal (as a string) to `line1`, duplicates included.
      let others := candidates.filter (fun c => c != line1)
      if others.isEmpty then classifyFallback candidates
      else .ok [line1, (sortDesc others).headD ""]
    | none => classifyFallback candidates

/-- `extract_mrz_from_ocr_text`: detect candidates, then classify. -/
def extract_mrz_from_ocr_text (text : String) : Except MrzError (List String) :=
  let candidates := extract_candidates text
  if candidates.isEmpty then .error .noCandidates
  else classify_candidates candidates

/-! ### Parsed records -/

/-- A parser result: Python dict with `mrz_type`, a `fields` mapping whose
values are strings or `None`, and a `check_digits` mapping whose values are
booleans (`none` would model a non-boolean value; the parsers only ever
store booleans). -/
structure ParsedRecord where
  mrz_type : String
  fields : List (String × Option String)
  check_digits : List (String × Option Bool)
deriving DecidableEq

/-- The record with the `confidence` key attached by `parse_mrz`. -/
structure FinalRecord where
  mrz_type : String
  fields : List (String × Option String)
  check_digits : List (String × Option Bool)
  confidence : ℚ
deriving DecidableEq

/-- `.replace("<", " ").strip()` applied to one name part. -/
def cleanName (s : String) : String :=
  stripStr (String.mk (s.toList.map (fun c => if c == '<' then ' ' else c)))

/-- `.replace("<", "")`. -/
def stripFiller (s : String) : String :=
  String.mk (s.toList.filter (fun c => !(c == '<')))

/-- The nested `convert` of the parsers: `re.match(r"^\d\x7b6\x7d$", d)`
requires exactly six ASCII digits (every call site passes a six-character
slice of a padded line, where the regex is exactly this test); then YYMMDD
with pivot year 30, emitted as `YYYY-MM-DD` with no calendar check. -/
def convert (d : String) : Option String :=
  if d.length == 6 && d.toList.all isDig then
    let yy := 10 * ((chAt d 0).toNat - 48) + ((chAt d 1).toNat - 48)
    let mm := pySlice d 2 4
    let dd := pySlice d 4 6
    let year := if yy < 30 then 2000 + yy else 1900 + yy
    some (toString year ++ "-" ++ mm ++ "-" ++ dd)
  else none

/-! ### TD3 — passport (2 lines, 44 chars) -/

/-- `parse_td3`: Python indexes `lines[0]` and `lines[1]`, so any list with
at least two elements is accepted; shorter lists are an `IndexError`. -/
def parse_td3 (lines : List String) : Option ParsedRecord :=
  match lines with
  | la :: lb :: _ =>
    let line1 := ljust la 44 '<'
    let line2 := ljust lb 44 '<'
    (pyGet line1 0).bind fun document_type =>
    let issuing_country := pySlice line1 2 5
    let name_section := pySliceFrom line1 5
    let parts := pySplit2First name_section
    let surname := cleanName (parts.headD "")
    let given_names := if 1 < parts.length then cleanName (parts.getD 1 "") else ""
    let passport_num := pySlice line2 0 9
    (pyGet line2 9).bind fun passport_cd =>
    let nationality := pySlice line2 10 13
    let dob := pySlice line2 13 19
    (pyGet line2 19).bind fun dob_cd =>
    (pyGet line2 20).bind fun sex =>
    let expiry := pySlice line2 21 27
    (pyGet line2 27).bind fun expiry_cd =>
    let optional := pySlice line2 28 42
    (pyGet line2 42).bind fun optional_cd =>
    (pyGet line2 43).bind fun composite_cd =>
    some
      { mrz_type := "TD3 (Passport)"
        fields :=
          [("document_type", some (String.singleton document_type)),
           ("issuing_country", some issuing_country),
           ("surname", some surname),
           ("given_names", some given_names),
           ("passport_number", some (stripFiller passport_num)),
           ("nationality", some nationality),
           ("date_of_birth", convert dob),
           ("sex", some (String.singleton sex)),
           ("date_of_expiry", convert expiry),
           ("optional_data", some (stripFiller optional))]
        check_digits :=
          [("passport_valid",
             some (mrz_check_digit passport_num == String.singleton passport_cd)),
           ("dob_valid", some (mrz_check_digit dob == String.singleton dob_cd)),
           ("expiry_valid",
             some (mrz_check_digit expiry == String.singleton expiry_cd)),
           ("optional_valid",
             some (mrz_check_digit optional == String.singleton optional_cd)),
           ("composite_valid",
             some (mrz_check_digit
               (passport_num ++ String.singleton passport_cd ++ nationality ++
                dob ++ String.singleton dob_cd ++ String.singleton sex ++
                expiry ++ String.singleton expiry_cd ++ optional ++
                String.singleton optional_cd) == String.singleton composite_cd))] }
  | _ => none

/-! ### TD1 — ID card (3 lines, 30 chars) -/

/-- `parse_td1`: Python unpacks exactly three lines. -/
def parse_td1 (lines : List String) : Option ParsedRecord :=
  match lines with
  | [la, lb, lc] =>
    let l1 := ljust la 30 '<'
    let l2 := ljust lb 30 '<'
    let l3 := ljust lc 30 '<'
    let doc_type := pySlice l1 0 2
    let issuing_country := pySlice l1 2 5
    let doc_num := pySlice l1 5 14
    (pyGet l1 14).bind fun doc_cd =>
    let optional1 := pySlice l1 15 30
    let dob := pySlice l2 0 6
    (pyGet l2 6).bind fun dob_cd =>
    (pyGet l2 7).bind fun sex =>
    let exp := pySlice l2 8 14
    (pyGet l2 14).bind fun exp_cd =>
    let nationality := pySlice l2 15 18
    let optional2 := pySlice l2 18 29
    (pyGet l2 29).bind fun optional2_cd =>
    -- `l3.split("<<")` with NO maxsplit: `parts[1]` is only the piece
    -- between the first and second separators.
    let name_parts := pySplit2 l3
    let surname := cleanName (name_parts.headD "")
    let given_names :=
      if 1 < name_parts.length then cleanName (name_parts.getD 1 "") else ""
    some
      { mrz_type := "TD1 (ID Card)"
        fields :=
          [("document_type", some doc_type),
           ("issuing_country", some issuing_country),
           ("document_number", some (stripFiller doc_num)),
           ("surname", some surname),
           ("given_names", some given_names),
           ("sex", some (String.singleton sex)),
           ("nationality", some nationality),
           ("date_of_birth", convert dob),
           ("date_of_expiry", convert exp),
           ("optional_data", some (stripFiller (optional1 ++ optional2)))]
        check_digits :=
          [("document_number_valid",
             some (mrz_check_digit doc_num == String.singleton doc_cd)),
           ("dob_valid", some (mrz_check_digit dob == String.singleton dob_cd)),
           ("expiry_valid", some (mrz_check_digit exp == String.singleton exp_cd)),
           ("optional2_valid",
             some (mrz_check_digit optional2 == String.singleton optional2_cd))] }
  | _ => none

/-! ### TD2 — visa (2 lines, 36 chars) -/

/-- `parse_td2`: Python unpacks exactly two lines. -/
def parse_td2 (lines : List String) : Option ParsedRecord :=
  match lines with
  | [la, lb] =>
    let l1 := ljust la 36 '<'
    let l2 := ljust lb 36 '<'
    (pyGet l1 0).bind fun doc_type =>
    let issuing_country := pySlice l1 2 5
    -- `l1[5:].split("<<")` with NO maxsplit, as in TD1.
    let name_parts := pySplit2 (pySliceFrom l1 5)
    let surname := cleanName (name_parts.headD "")
    let given_names :=
      if 1 < name_parts.length then cleanName (name_parts.getD 1 "") else ""
    let passport_num := pySlice l2 0 9
    (pyGet l2 9).bind fun passport_cd =>
    let nationality := pySlice l2 10 13
    let dob := pySlice l2 13 19
    (pyGet l2 19).bind fun dob_cd =>
    (pyGet l2 20).bind fun sex =>
    let expiry := pySlice l2 21 27
    (pyGet l2 27).bind fun expiry_cd =>
    let optional := pySlice l2 28 35
    (pyGet l2 35).bind fun optional_cd =>
    some
      { mrz_type := "TD2 (Visa)"
        fields :=
          [("document_type", some (String.singleton doc_type)),
           ("issuing_country", some issuing_country),
           ("surname", some surname),
           ("given_names", some given_names),
           ("passport_number", some (stripFiller passport_num)),
           ("nationality", some nationality),
           ("sex", some (String.singleton sex)),
           ("date_of_birth", convert dob),
           ("date_of_expiry", convert expiry),
           ("optional_data", some (stripFiller optional))]
        check_digits :=
          [("passport_valid",
             some (mrz_check_digit passport_num == String.singleton passport_cd)),
           ("dob_valid", some (mrz_check_digit dob == String.singleton dob_cd)),
           ("expiry_valid",
             some (mrz_check_digit expiry == String.singleton expiry_cd)),
           ("optional_valid",
             some (mrz_check_digit optional == String.singleton optional_cd))] }
  | _ => none

/-! ### Confidence scoring (`compute_confidence`) -/

/-- `compute_confidence`: 0.3 for an empty mapping, 0.4 when no value is a
boolean, otherwise the fraction of true booleans, plus 0.1 when `mrz_type`
starts with `"TD"`, clamped to the unit interval. -/
def compute_confidence (parsed : ParsedRecord) : ℚ :=
  let cd := parsed.check_digits
  if cd.isEmpty then 3/10
  else
    let bools := cd.filterMap (fun kv => kv.2)
    if bools.isEmpty then 4/10
    else
      let base : ℚ := ((bools.count true : ℚ) / (bools.length : ℚ))
      let base := if pyStartsWith parsed.mrz_type "TD" then base + 1/10 else base
      max 0 (min 1 base)

/-! ### Main dispatch (`parse_mrz`) -/

/-- Attach the confidence score to a parser result (`parsed["confidence"]
= compute_confidence(parsed)`); a `none` from the parser would be a raised
`IndexError`. -/
def finish (p : Option ParsedRecord) : Except MrzError FinalRecord :=
  match p with
  | some parsed =>
    .ok ⟨parsed.mrz_type, parsed.fields, parsed.check_digits,
         compute_confidence parsed⟩
  | none => .error .indexError

/-- `parse_mrz`: 3 lines to TD1; 2 lines to TD3 when the first starts with
`"P<"` or has length at least 40, else TD2; anything else is unsupported. -/
def parse_mrz (mrz_lines : List String) : Except MrzError FinalRecord :=
  match mrz_lines with
  | [a, b, c] => finish (parse_td1 [a, b, c])
  | [a, b] =>
    if pyStartsWith a "P<" || 40 ≤ a.length then finish (parse_td3 [a, b])
    else finish (parse_td2 [a, b])
  | _ => .error .unsupportedLayout

/-! ## Specification-side definitions (phrased after the spec text, to be
compared with the code-derived definitions above) -/

/-- The spec's cyclic weight sequence: position 0 weight 7, position 1
weight 3, position 2 weight 1, repeating. -/
def wtSpec (i : Nat) : Nat :=
  if i % 3 = 0 then 7 else if i % 3 = 1 then 3 else 1

/-- First-occurrence-wins longest string of a list (ties broken by original
order): the spec's description of the TD3 second-line selection. -/
def firstLongest : List String → String
  | [] => ""
  | x :: xs => if (firstLongest xs).length ≤ x.length then x else firstLongest xs

/-- The candidate detector as the spec phrases it: trim each line, drop the
blank ones, normalize, keep iff at least 2 fillers and length at least 25. -/
def candidatesSpec (text : String) : List String :=
  ((((pySplitLines text).map stripStr).filter (fun t => !(t == ""))).map
      normalize_mrz_line).filter
    (fun n => 2 ≤ countChar n '<' && 25 ≤ n.length)

/-- Spec name split, surname part: the text before the first `"<<"`,
fillers replaced by spaces, trimmed. -/
def surnameOf (ns : String) : String :=
  cleanName ((pySplit2 ns).headD "")

/-- Spec name split, given-names part as C2 claims it for all parsers: the
entire remainder after the FIRST `"<<"` (cleaned), empty when there is no
separator. -/
def givenAfterFirst (ns : String) : String :=
  match pySplit2 ns with
  | _ :: r :: rest => cleanName (joinSep (r :: rest))
  | _ => ""

/-- Given names as TD1/TD2 actually compute them: only the piece between
the first and the second `"<<"` (cleaned), empty when there is no
separator. -/
def givenBetween (ns : String) : String :=
  match pySplit2 ns with
  | _ :: r :: _ => cleanName r
  | _ => ""

deriving instance DecidableEq for Except

/-- A 44-character "P<" passport-style line (concrete test vector). -/
def pLine : String := "P<UTOERIKSSON<<ANNA<MARIA<<<<<<<<<<<<<<<<<<<"

/-- A 30-character ID-card-style line (concrete test vector). -/
def iLine : String := "I<UTOD231458907<<<<<<<<<<<<<<<"

/-- A 44-character candidate that does not start with "P<". -/
def longLine : String := "XX<<XXXXXXXXXXXXXXXXXXXXXXXXXXXXXXXXXXXXXXXX"

/-! ## Proof development -/

/-! ### C1: the check digit -/

theorem foldl_add_map (g : Nat × Char → Nat) :
    ∀ (l : List (Nat × Char)) (a : Nat),
      l.foldl (fun total ic => total + g ic) a = a + (l.map g).sum := by
  intro l
  induction l with
  | nil => intro a; simp
  | cons x xs ih =>
    intro a
    simp only [List.foldl_cons, List.map_cons, List.sum_cons, ih]
    omega

theorem weights_getD_eq_wtSpec (i : Nat) :
    ([7, 3, 1] : List Nat).getD (i % 3) 0 = wtSpec i := by
  have h : i % 3 = 0 ∨ i % 3 = 1 ∨ i % 3 = 2 := by omega
  rcases h with h | h | h <;> simp [wtSpec, h]

/-- C1.  The recomputed check digit is the decimal digit of the cyclically
weighted (7,3,1) sum of character values modulo 10; on the ICAO worked
example "520727" it is '3', and checking the altered field "520728"
against the embedded digit '3' yields false. -/
theorem check_digit_spec :
    (∀ field : String,
        mrz_check_digit field =
          toString (((field.toList.enum.map
            (fun ic => mrz_char_value ic.2 * wtSpec ic.1)).sum) % 10)) ∧
      mrz_check_digit "520727" = "3" ∧
      (mrz_check_digit "520728" == "3") = false := by
  refine ⟨fun field => ?_, by decide, by decide⟩
  simp only [mrz_check_digit, foldl_add_map, weights_getD_eq_wtSpec, Nat.zero_add]

/-! ### C9: the normalizer is idempotent -/

theorem subOne_subOne (prev c : Char) : subOne prev (subOne prev c) = subOne prev c := by
  by_cases hd : isDig prev
  · simp only [subOne, hd, Bool.and_true]
    by_cases h1 : c == 'O'
    · simp [h1]
    · by_cases h2 : c == 'I'
      · simp [h1, h2]
      · by_cases h3 : c == 'B'
        · simp [h1, h2, h3]
        · by_cases h4 : c == 'S'
          · simp [h1, h2, h3, h4]
          · simp [h1, h2, h3, h4]
  · simp only [subOne, hd, Bool.and_false, Bool.false_eq_true, if_false]

theorem smartFixGo_idem :
    ∀ (cs : List Char) (prev : Char),
      smartFixGo prev (smartFixGo prev cs) = smartFixGo prev cs := by
  intro cs
  induction cs with
  | nil => intro prev; rfl
  | cons c cs ih =>
    intro prev
    simp only [smartFixGo, subOne_subOne, ih]

theorem keep_subOne (prev c : Char) (h : keepMrz c = true) :
    keepMrz (subOne prev c) = true := by
  by_cases hd : isDig prev
  · simp only [subOne, hd, Bool.and_true]
    by_cases h1 : c == 'O'
    · simp [h1]; decide
    · by_cases h2 : c == 'I'
      · simp [h1, h2]; decide
      · by_cases h3 : c == 'B'
        · simp [h1, h2, h3]; decide
        · by_cases h4 : c == 'S'
          · simp [h1, h2, h3, h4]; decide
          · simpa [h1, h2, h3, h4] using h
  · simpa [subOne, hd] using h

theorem smartFixGo_keep :
    ∀ (cs : List Char) (prev : Char), (∀ c ∈ cs, keepMrz c = true) →
      ∀ x ∈ smartFixGo prev cs, keepMrz x = true := by
  intro cs
  induction cs with
  | nil => intro prev _ x hx; simp [smartFixGo] at hx
  | cons c cs ih =>
    intro prev h x hx
    simp only [smartFixGo, List.mem_cons] at hx
    rcases hx with rfl | hx
    · exact keep_subOne prev c (h c (by simp))
    · exact ih (subOne prev c) (fun y hy => h y (by simp [hy])) x hx

theorem keep_toUpper (c : Char) (h : keepMrz c = true) : Char.toUpper c = c := by
  simp only [keepMrz, Bool.or_eq_true, Bool.and_eq_true, decide_eq_true_eq,
    Nat.beq_eq_true_eq] at h
  show (if c.toNat ≥ 97 ∧ c.toNat ≤ 122 then Char.ofNat (c.toNat - 32) else c) = c
  rw [if_neg (by omega)]

theorem map_id_of_mem (f : Char → Char) :
    ∀ (l : List Char), (∀ x ∈ l, f x = x) → l.map f = l := by
  intro l
  induction l with
  | nil => intro _; rfl
  | cons c cs ih =>
    intro h
    simp only [List.map_cons, h c (by simp), ih (fun y hy => h y (by simp [hy]))]

theorem smart_fix_keep (s : List Char) (h : ∀ x ∈ s, keepMrz x = true) :
    ∀ x ∈ smart_fix s, keepMrz x = true := by
  match s with
  | [] => intro x hx; simp [smart_fix] at hx
  | c :: cs =>
    intro x hx
    simp only [smart_fix, List.mem_cons] at hx
    rcases hx with rfl | hx
    · exact h x (by simp)
    · exact smartFixGo_keep cs c (fun y hy => h y (by simp [hy])) x hx

theorem smart_fix_idem (s : List Char) : smart_fix (smart_fix s) = smart_fix s := by
  match s with
  | [] => rfl
  | c :: cs => simp only [smart_fix, smartFixGo_idem]

/-- C9.  The line normalizer is idempotent: normalizing twice equals
normalizing once, for every raw line. -/
theorem normalize_idempotent (l : String) :
    normalize_mrz_line (normalize_mrz_line l) = normalize_mrz_line l := by
  unfold normalize_mrz_line
  have hkeep : ∀ x ∈ (l.toList.map Char.toUpper).filter keepMrz, keepMrz x = true :=
    fun x hx => List.of_mem_filter hx
  have hout : ∀ x ∈ smart_fix ((l.toList.map Char.toUpper).filter keepMrz),
      keepMrz x = true := smart_fix_keep _ hkeep
  have h1 : (String.mk (smart_fix ((l.toList.map Char.toUpper).filter keepMrz))).toList
      = smart_fix ((l.toList.map Char.toUpper).filter keepMrz) := rfl
  rw [h1, map_id_of_mem Char.toUpper _ (fun x hx => keep_toUpper x (hout x hx)),
    List.filter_eq_self.2 hout, smart_fix_idem]

/-! ### C6: date conversion -/

/-- C6.  A six-character date substring converts to `none` unless all six
characters are digits; otherwise it is read as YYMMDD with pivot year 30
and emitted as `YYYY-MM-DD`, with no calendar check.  Reference vectors
from the spec included. -/
theorem convert_spec :
    (∀ d : String, d.length = 6 →
        convert d =
          if d.toList.all isDig then
            some (toString
                (if 10 * ((chAt d 0).toNat - 48) + ((chAt d 1).toNat - 48) < 30 then
                  2000 + (10 * ((chAt d 0).toNat - 48) + ((chAt d 1).toNat - 48))
                 else 1900 + (10 * ((chAt d 0).toNat - 48) + ((chAt d 1).toNat - 48)))
              ++ "-" ++ pySlice d 2 4 ++ "-" ++ pySlice d 4 6)
          else none) ∧
      convert "990101" = some "1999-01-01" ∧
      convert "050101" = some "2005-01-01" ∧
      convert "301201" = some "1930-12-01" ∧
      convert "29ab01" = none := by
  refine ⟨fun d h => ?_, by decide, by decide, by decide, by decide⟩
  unfold convert
  rw [h]
  simp only [beq_self_eq_true, Bool.true_and]

/-- Witness: the theorem applied to the six-character string "023099"
produces the calendar-invalid but well-formed date the spec predicts. -/
theorem convert_spec_witness : convert "023099" = some "2002-30-99" := by
  have h := convert_spec.1 "023099" (by decide)
  rw [h]
  decide

/-! ### Padded-line indexing: infrastructure for the parsers -/

theorem ljust_toList (s : String) (w : Nat) (c : Char) :
    (ljust s w c).toList = s.toList ++ List.replicate (w - s.length) c := by
  cases s
  rfl

theorem pyGet_ljust (s : String) (w : Nat) (c : Char) (i : Nat) (h : i < w) :
    pyGet (ljust s w c) i = some (chAt (ljust s w c) i) := by
  have hs : s.length = s.toList.length := rfl
  have hlen : i < (ljust s w c).toList.length := by
    rw [ljust_toList]
    simp only [List.length_append, List.length_replicate]
    omega
  unfold pyGet chAt
  rw [List.get?_eq_get hlen]
  congr 1
  rw [List.getD_eq_getElem?_getD, List.getElem?_eq_getElem hlen]
  simp [List.get_eq_getElem]

/-! ### Name-splitting bridges -/

theorem splitLtLt_ne_nil (l acc : List Char) : splitLtLt l acc ≠ [] := by
  induction l, acc using splitLtLt.induct with
  | case1 rest acc ih => simp [splitLtLt]
  | case2 c rest acc h ih =>
    rw [splitLtLt.eq_2]
    · exact ih
    · exact h
  | case3 acc => simp [splitLtLt]

theorem pySplit2_ne_nil (s : String) : pySplit2 s ≠ [] := by
  unfold pySplit2
  intro h
  exact splitLtLt_ne_nil s.toList [] (List.map_eq_nil_iff.mp h)

theorem split2First_headD (ns : String) :
    (pySplit2First ns).headD "" = (pySplit2 ns).headD "" := by
  unfold pySplit2First
  match h : pySplit2 ns with
  | [] => exact absurd h (pySplit2_ne_nil ns)
  | [x] => simp
  | x :: y :: rest => simp

theorem given_if_eq_between (ns : String) :
    (if 1 < (pySplit2 ns).length then cleanName ((pySplit2 ns).getD 1 "") else "")
      = givenBetween ns := by
  unfold givenBetween
  match h : pySplit2 ns with
  | [] => simp [h]
  | [x] => simp [h]
  | x :: y :: rest => simp [h]

theorem given_if_eq_after (ns : String) :
    (if 1 < (pySplit2First ns).length then cleanName ((pySplit2First ns).getD 1 "")
     else "") = givenAfterFirst ns := by
  unfold pySplit2First givenAfterFirst
  match h : pySplit2 ns with
  | [] => simp
  | [x] => simp
  | x :: y :: rest => simp

/-! ### Totality and shape of the three field parsers -/

theorem parse_td1_eq (a b c : String) :
    ∃ r, parse_td1 [a, b, c] = some r ∧
      r.mrz_type = "TD1 (ID Card)" ∧
      r.fields.map Prod.fst =
        ["document_type", "issuing_country", "document_number", "surname",
         "given_names", "sex", "nationality", "date_of_birth",
         "date_of_expiry", "optional_data"] ∧
      r.check_digits.map Prod.fst =
        ["document_number_valid", "dob_valid", "expiry_valid", "optional2_valid"] ∧
      (r.check_digits.all fun kv => kv.2.isSome) = true ∧
      List.lookup "surname" r.fields = some (some (surnameOf (ljust c 30 '<'))) ∧
      List.lookup "given_names" r.fields
        = some (some (givenBetween (ljust c 30 '<'))) := by
  simp only [parse_td1]
  rw [pyGet_ljust a 30 '<' 14 (by omega), pyGet_ljust b 30 '<' 6 (by omega),
      pyGet_ljust b 30 '<' 7 (by omega), pyGet_ljust b 30 '<' 14 (by omega),
      pyGet_ljust b 30 '<' 29 (by omega)]
  simp only [Option.some_bind]
  refine ⟨_, rfl, rfl, by simp, by simp, by simp, ?_, ?_⟩
  · simp [List.lookup, surnameOf]
  · simpa [List.lookup] using given_if_eq_between (ljust c 30 '<')

theorem parse_td2_eq (a b : String) :
    ∃ r, parse_td2 [a, b] = some r ∧
      r.mrz_type = "TD2 (Visa)" ∧
      r.fields.map Prod.fst =
        ["document_type", "issuing_country", "surname", "given_names",
         "passport_number", "nationality", "sex", "date_of_birth",
         "date_of_expiry", "optional_data"] ∧
      r.check_digits.map Prod.fst =
        ["passport_valid", "dob_valid", "expiry_valid", "optional_valid"] ∧
      (r.check_digits.all fun kv => kv.2.isSome) = true ∧
      List.lookup "surname" r.fields
        = some (some (surnameOf (pySliceFrom (ljust a 36 '<') 5))) ∧
      List.lookup "given_names" r.fields
        = some (some (givenBetween (pySliceFrom (ljust a 36 '<') 5))) := by
  simp only [parse_td2]
  rw [pyGet_ljust a 36 '<' 0 (by omega), pyGet_ljust b 36 '<' 9 (by omega),
      pyGet_ljust b 36 '<' 19 (by omega), pyGet_ljust b 36 '<' 20 (by omega),
      pyGet_ljust b 36 '<' 27 (by omega), pyGet_ljust b 36 '<' 35 (by omega)]
  simp only [Option.some_bind]
  refine ⟨_, rfl, rfl, by simp, by simp, by simp, ?_, ?_⟩
  · simp [List.lookup, surnameOf]
  · simpa [List.lookup] using given_if_eq_between (pySliceFrom (ljust a 36 '<') 5)

theorem parse_td3_eq (a b : String) :
    ∃ r, parse_td3 [a, b] = some r ∧
      r.mrz_type = "TD3 (Passport)" ∧
      r.fields.map Prod.fst =
        ["document_type", "issuing_country", "surname", "given_names",
         "passport_number", "nationality", "date_of_birth", "sex",
         "date_of_expiry", "optional_data"] ∧
      r.check_digits.map Prod.fst =
        ["passport_valid", "dob_valid", "expiry_valid", "optional_valid",
         "composite_valid"] ∧
      (r.check_digits.all fun kv => kv.2.isSome) = true ∧
      List.lookup "surname" r.fields
        = some (some (surnameOf (pySliceFrom (ljust a 44 '<') 5))) ∧
      List.lookup "given_names" r.fields
        = some (some (givenAfterFirst (pySliceFrom (ljust a 44 '<') 5))) := by
  simp only [parse_td3]
  rw [pyGet_ljust a 44 '<' 0 (by omega), pyGet_ljust b 44 '<' 9 (by omega),
      pyGet_ljust b 44 '<' 19 (by omega), pyGet_ljust b 44 '<' 20 (by omega),
      pyGet_ljust b 44 '<' 27 (by omega), pyGet_ljust b 44 '<' 42 (by omega),
      pyGet_ljust b 44 '<' 43 (by omega)]
  simp only [Option.some_bind]
  refine ⟨_, rfl, rfl, by simp, by simp, by simp, ?_, ?_⟩
  · have h := congrArg cleanName (split2First_headD (pySliceFrom (ljust a 44 '<') 5))
    simpa [List.lookup, surnameOf] using h
  · simpa [List.lookup] using given_if_eq_after (pySliceFrom (ljust a 44 '<') 5)

/-! ### C10: the parsers are total under their arity preconditions -/

/-- C10.  Given exactly three arbitrary strings, `parse_td1` returns a
complete record (full fixed key set, all check-digit outcomes boolean)
without failure, and likewise `parse_td2` and `parse_td3` for exactly two
arbitrary strings: right-padding makes every slice and index in bounds. -/
theorem parsers_total :
    (∀ a b c : String, ∃ r, parse_td1 [a, b, c] = some r ∧
        r.fields.map Prod.fst =
          ["document_type", "issuing_country", "document_number", "surname",
           "given_names", "sex", "nationality", "date_of_birth",
           "date_of_expiry", "optional_data"] ∧
        r.check_digits.map Prod.fst =
          ["document_number_valid", "dob_valid", "expiry_valid",
           "optional2_valid"] ∧
        (r.check_digits.all fun kv => kv.2.isSome) = true) ∧
    (∀ a b : String, ∃ r, parse_td2 [a, b] = some r ∧
        r.fields.map Prod.fst =
          ["document_type", "issuing_country", "surname", "given_names",
           "passport_number", "nationality", "sex", "date_of_birth",
           "date_of_expiry", "optional_data"] ∧
        r.check_digits.map Prod.fst =
          ["passport_valid", "dob_valid", "expiry_valid", "optional_valid"] ∧
        (r.check_digits.all fun kv => kv.2.isSome) = true) ∧
    (∀ a b : String, ∃ r, parse_td3 [a, b] = some r ∧
        r.fields.map Prod.fst =
          ["document_type", "issuing_country", "surname", "given_names",
           "passport_number", "nationality", "date_of_birth", "sex",
           "date_of_expiry", "optional_data"] ∧
        r.check_digits.map Prod.fst =
          ["passport_valid", "dob_valid", "expiry_valid", "optional_valid",
           "composite_valid"] ∧
        (r.check_digits.all fun kv => kv.2.isSome) = true) := by
  refine ⟨fun a b c => ?_, fun a b => ?_, fun a b => ?_⟩
  · obtain ⟨r, h1, _, h3, h4, h5, _, _⟩ := parse_td1_eq a b c
    exact ⟨r, h1, h3, h4, h5⟩
  · obtain ⟨r, h1, _, h3, h4, h5, _, _⟩ := parse_td2_eq a b
    exact ⟨r, h1, h3, h4, h5⟩
  · obtain ⟨r, h1, _, h3, h4, h5, _, _⟩ := parse_td3_eq a b
    exact ⟨r, h1, h3, h4, h5⟩

/-! ### C2: how the name block is actually split -/

/-- C2 counterexample.  With third TD1 line "AAA<<BBB<<CCC" the parser
stores given names "BBB" (only the piece between the first and second
separators), not the claimed entire remainder "BBB  CCC" after the first
separator. -/
theorem name_split_cex :
    ((parse_td1 ["", "", "AAA<<BBB<<CCC"]).map
        (fun r => List.lookup "given_names" r.fields))
      = some (some (some "BBB")) ∧
    givenAfterFirst (ljust "AAA<<BBB<<CCC" 30 '<') = "BBB  CCC" ∧
    (("BBB" : String) == "BBB  CCC") = false := by
  exact ⟨by decide, by decide, by decide⟩

/-- C2 amended.  All three parsers take the surname from before the first
`"<<"` of the (padded) name block; `parse_td3` (maxsplit 1) takes the
given names from the entire remainder after the first `"<<"`, while
`parse_td1` and `parse_td2` (full split) take only the segment between the
first and second `"<<"`. -/
theorem name_split_amended :
    (∀ a b : String, ∃ r, parse_td3 [a, b] = some r ∧
        List.lookup "surname" r.fields
          = some (some (surnameOf (pySliceFrom (ljust a 44 '<') 5))) ∧
        List.lookup "given_names" r.fields
          = some (some (givenAfterFirst (pySliceFrom (ljust a 44 '<') 5)))) ∧
    (∀ a b c : String, ∃ r, parse_td1 [a, b, c] = some r ∧
        List.lookup "surname" r.fields
          = some (some (surnameOf (ljust c 30 '<'))) ∧
        List.lookup "given_names" r.fields
          = some (some (givenBetween (ljust c 30 '<')))) ∧
    (∀ a b : String, ∃ r, parse_td2 [a, b] = some r ∧
        List.lookup "surname" r.fields
          = some (some (surnameOf (pySliceFrom (ljust a 36 '<') 5))) ∧
        List.lookup "given_names" r.fields
          = some (some (givenBetween (pySliceFrom (ljust a 36 '<') 5)))) := by
  refine ⟨fun a b => ?_, fun a b c => ?_, fun a b => ?_⟩
  · obtain ⟨r, h1, _, _, _, _, h6, h7⟩ := parse_td3_eq a b
    exact ⟨r, h1, h6, h7⟩
  · obtain ⟨r, h1, _, _, _, _, h6, h7⟩ := parse_td1_eq a b c
    exact ⟨r, h1, h6, h7⟩
  · obtain ⟨r, h1, _, _, _, _, h6, h7⟩ := parse_td2_eq a b
    exact ⟨r, h1, h6, h7⟩

/-! ### Stable descending sort and the classifier -/

theorem insertDesc_ne_nil (x : String) (l : List String) : insertDesc x l ≠ [] := by
  cases l with
  | nil => simp [insertDesc]
  | cons y ys =>
    unfold insertDesc
    split <;> simp

theorem sortDesc_ne_nil (x : String) (xs : List String) : sortDesc (x :: xs) ≠ [] := by
  simp only [sortDesc]
  exact insertDesc_ne_nil x (sortDesc xs)

theorem sortDesc_head : ∀ l : List String, (sortDesc l).headD "" = firstLongest l := by
  intro l
  induction l with
  | nil => rfl
  | cons x xs ih =>
    cases xs with
    | nil => simp [sortDesc, insertDesc, firstLongest]
    | cons y ys =>
      obtain ⟨z, zs, hz⟩ := List.exists_cons_of_ne_nil (sortDesc_ne_nil y ys)
      have hhead : z = firstLongest (y :: ys) := by
        rw [hz] at ih
        simpa using ih
      show (insertDesc x (sortDesc (y :: ys))).headD "" = firstLongest (x :: y :: ys)
      rw [hz]
      have hfl : firstLongest (x :: y :: ys)
          = if (firstLongest (y :: ys)).length ≤ x.length then x
            else firstLongest (y :: ys) := rfl
      rw [hfl, ← hhead]
      simp only [insertDesc]
      split <;> simp

/-- C4 amended.  When the candidate list is not classified TD1 and the
first "P<" candidate is `line1`, and at least one candidate differs from
`line1`, the classifier returns `line1` plus the longest candidate among
those not equal to `line1` (ties broken by original order, first
occurrence wins); candidates equal to `line1` — duplicates included — are
excluded from the choice. -/
theorem classify_p_branch (cands : List String) (line1 : String)
    (h1 : ((cands.filter fun s => 28 ≤ s.length && s.length ≤ 36).length < 3))
    (h2 : cands.find? (fun s => pyStartsWith s "P<") = some line1)
    (h3 : cands.filter (fun s => s != line1) ≠ []) :
    classify_candidates cands
      = .ok [line1, firstLongest (cands.filter (fun s => s != line1))] := by
  unfold classify_candidates
  rw [if_neg (by omega), h2]
  have hne : (cands.filter (fun s => s != line1)).isEmpty = false := by
    simpa [List.isEmpty_iff] using h3
  simp only [hne, Bool.false_eq_true, if_false, sortDesc_head]

/-- C4 counterexample.  With candidates `[pLine, pLine, iLine]` (not TD1:
only one length lies in 28-36), the claim predicts line 2 = the longest of
the remaining candidates `[pLine, iLine]`, i.e. `pLine`; the code removes
every copy of `pLine` from `others` and returns `iLine` instead. -/
theorem classify_dup_cex :
    classify_candidates [pLine, pLine, iLine] = .ok [pLine, iLine] ∧
    firstLongest (([pLine, pLine, iLine] : List String).erase pLine) = pLine ∧
    (iLine == pLine) = false := ⟨by decide, by decide, by decide⟩

/-- Witness for C4 amended at a concrete two-candidate list. -/
theorem classify_p_branch_witness :
    classify_candidates [pLine, iLine]
      = .ok [pLine, firstLongest (([pLine, iLine] : List String).filter
          (fun s => s != pLine))] :=
  classify_p_branch [pLine, iLine] pLine (by decide) (by decide) (by decide)

/-- C8.  Whenever detection yields exactly one candidate line, of any
content, extraction fails with the insufficient-lines condition (never a
line set, never the no-candidates condition). -/
theorem single_candidate_insufficient (text : String) (c : String)
    (h : extract_candidates text = [c]) :
    extract_mrz_from_ocr_text text = .error .insufficientLines := by
  unfold extract_mrz_from_ocr_text
  rw [h]
  simp only [List.isEmpty_cons, Bool.false_eq_true, if_false]
  unfold classify_candidates classifyFallback
  rw [if_neg (by
    cases hp : (28 ≤ c.length && c.length ≤ 36) <;> simp [List.filter, hp])]
  cases hf : ([c].find? fun s => pyStartsWith s "P<") with
  | none => simp
  | some line1 =>
    have hl : line1 = c := by
      have := List.find?_some hf
      have hmem := List.mem_of_find?_eq_some hf
      simpa using hmem
    subst hl
    simp [List.filter]

/-- Witness for C8: a single 36-character MRZ-like line is detected as
exactly one candidate and extraction fails with the insufficient-lines
condition. -/
theorem single_candidate_witness :
    extract_mrz_from_ocr_text "P<UTOPIA<<<<<<<<<<<<<<<<<<<<<<<<<<<<"
      = .error .insufficientLines :=
  single_candidate_insufficient "P<UTOPIA<<<<<<<<<<<<<<<<<<<<<<<<<<<<"
    "P<UTOPIA<<<<<<<<<<<<<<<<<<<<<<<<<<<<" (by decide)

/-! ### C7: the candidate filter -/

theorem extract_candidates_pipeline (text : String) :
    extract_candidates text = candidatesSpec text := by
  unfold extract_candidates candidatesSpec
  generalize pySplitLines text = ls
  induction ls with
  | nil => rfl
  | cons l ls ih =>
    simp at ih
    by_cases hb : stripStr l = ""
    · simp [hb, ih]
    · by_cases hc : 2 ≤ countChar (normalize_mrz_line (stripStr l)) '<'
          ∧ 25 ≤ (normalize_mrz_line (stripStr l)).length
      · simp [hb, hc.1, hc.2, ih]
      · rcases not_and_or.mp hc with h | h <;> simp [hb, h, ih]

theorem classify_not_noCandidates (cands : List String) :
    classify_candidates cands ≠ .error .noCandidates := by
  simp only [classify_candidates, classifyFallback]
  repeat' split
  all_goals simp

/-- C7.  A trimmed non-blank line becomes a candidate iff its normalized
form has at least two fillers and length at least 25 (the detector equals
the spec's filter pipeline); detection fails with NoCandidatesFound iff no
line passes the filter; and empty or whitespace-only input so fails. -/
theorem candidate_detection_spec :
    (∀ text : String, extract_candidates text = candidatesSpec text) ∧
    (∀ text : String,
        (extract_mrz_from_ocr_text text = .error .noCandidates
          ↔ extract_candidates text = [])) ∧
    extract_mrz_from_ocr_text "" = .error .noCandidates ∧
    extract_mrz_from_ocr_text "  \t  \n \n   " = .error .noCandidates := by
  refine ⟨extract_candidates_pipeline, fun text => ⟨fun h => ?_, fun h => ?_⟩,
    by decide, by decide⟩
  · by_cases hc : extract_candidates text = []
    · exact hc
    · exfalso
      have hb : (extract_candidates text).isEmpty = false := by
        simpa [List.isEmpty_iff] using hc
      simp only [extract_mrz_from_ocr_text, hb, Bool.false_eq_true, if_false] at h
      exact classify_not_noCandidates _ h
  · unfold extract_mrz_from_ocr_text
    rw [h]
    rfl

/-! ### C3: the dispatcher -/

/-- C3 counterexample.  A two-line set whose lines have equal length 44
and do not start with "P<" is dispatched to the TD3 parser through the
length-at-least-40 arm, so it is NOT parsed as TD2 as the claim's final
clause asserts. -/
theorem dispatch_cex :
    pyStartsWith longLine "P<" = false ∧
    ((parse_mrz [longLine, longLine]).toOption.map (fun r => r.mrz_type))
      = some "TD3 (Passport)" ∧
    ("TD3 (Passport)" == "TD2 (Visa)") = false :=
  ⟨by decide, by decide, by decide⟩

/-- C3 amended.  Three lines go to TD1; two lines go to TD3 iff the first
starts with "P<" or has length at least 40 and otherwise to TD2; any other
count is the unsupported-layout failure; and a 2-line set whose first line
neither starts with "P<" nor reaches length 40 is parsed as TD2 (returning
a record, never the unsupported-layout failure). -/
theorem dispatch_amended :
    (∀ a b c : String, parse_mrz [a, b, c] = finish (parse_td1 [a, b, c])) ∧
    (∀ a b : String, parse_mrz [a, b] =
        if pyStartsWith a "P<" || 40 ≤ a.length then finish (parse_td3 [a, b])
        else finish (parse_td2 [a, b])) ∧
    (∀ lines : List String, lines.length ≠ 2 → lines.length ≠ 3 →
        parse_mrz lines = .error .unsupportedLayout) ∧
    (∀ a b : String, pyStartsWith a "P<" = false → a.length < 40 →
        ∃ r, parse_mrz [a, b] = .ok r ∧ r.mrz_type = "TD2 (Visa)") := by
  refine ⟨fun a b c => rfl, fun a b => rfl, fun lines h2 h3 => ?_, fun a b h1 h2 => ?_⟩
  · match lines with
    | [] => rfl
    | [x] => rfl
    | [x, y] => simp at h2
    | [x, y, z] => simp at h3
    | x :: y :: z :: w :: rest => rfl
  · obtain ⟨r, hr, htype, _⟩ := parse_td2_eq a b
    have hcond : (pyStartsWith a "P<" || decide (40 ≤ a.length)) = false := by
      simp [h1]
      omega
    refine ⟨⟨r.mrz_type, r.fields, r.check_digits, compute_confidence r⟩, ?_, htype⟩
    have hstep : parse_mrz [a, b] = finish (parse_td2 [a, b]) := by
      show (if pyStartsWith a "P<" || decide (40 ≤ a.length)
          then finish (parse_td3 [a, b]) else finish (parse_td2 [a, b]))
        = finish (parse_td2 [a, b])
      rw [hcond]
      simp
    rw [hstep, hr]
    rfl

/-- Witness for C3: the length-mismatch arm and the TD2 arm of the amended
dispatch claim at concrete inputs. -/
theorem dispatch_amended_witness :
    parse_mrz ([] : List String) = .error .unsupportedLayout ∧
    ((parse_mrz [iLine, iLine]).toOption.map (fun r => r.mrz_type))
      = some "TD2 (Visa)" := by
  constructor
  · exact dispatch_amended.2.2.1 [] (by decide) (by decide)
  · obtain ⟨r, hr, ht⟩ := dispatch_amended.2.2.2 iLine iLine (by decide) (by decide)
    rw [hr]
    show some r.mrz_type = some "TD2 (Visa)"
    rw [ht]

/-! ### C5: confidence scoring -/

theorem compute_confidence_formula (p : ParsedRecord) :
    compute_confidence p =
      if p.check_digits = [] then 3/10
      else if p.check_digits.filterMap (fun kv => kv.2) = [] then 4/10
      else max 0 (min 1
        (((p.check_digits.filterMap (fun kv => kv.2)).count true : ℚ) /
          ((p.check_digits.filterMap (fun kv => kv.2)).length : ℚ)
         + if pyStartsWith p.mrz_type "TD" then 1/10 else 0)) := by
  unfold compute_confidence
  by_cases h1 : p.check_digits = []
  · simp [h1]
  · have h1b : p.check_digits.isEmpty = false := by
      simpa [List.isEmpty_iff] using h1
    by_cases h2 : p.check_digits.filterMap (fun kv => kv.2) = []
    · simp [h1, h1b, h2]
    · have h2b : (p.check_digits.filterMap (fun kv => kv.2)).isEmpty = false := by
        simpa [List.isEmpty_iff] using h2
      by_cases h3 : pyStartsWith p.mrz_type "TD"
      · simp [h1, h1b, h2, h2b, h3]
      · simp [h1, h1b, h2, h2b, h3]

theorem compute_confidence_mem (p : ParsedRecord) :
    0 ≤ compute_confidence p ∧ compute_confidence p ≤ 1 := by
  rw [compute_confidence_formula]
  split
  · norm_num
  · split
    · norm_num
    · exact ⟨le_max_left 0 _, max_le (by norm_num) (min_le_left 1 _)⟩

theorem finish_conf_mem (o : Option ParsedRecord) :
    match finish o with
    | .ok r => 0 ≤ r.confidence ∧ r.confidence ≤ 1
    | .error _ => True := by
  cases o with
  | none => trivial
  | some p => exact compute_confidence_mem p

/-- C5.  The confidence is exactly the spec's piecewise formula (0.3 for an
empty mapping, 0.4 with no boolean entries, else true-fraction plus 0.1
for a "TD" type, clamped), and every record `parse_mrz` returns carries a
confidence in the unit interval. -/
theorem confidence_spec :
    (∀ p : ParsedRecord,
        compute_confidence p =
          if p.check_digits = [] then 3/10
          else if p.check_digits.filterMap (fun kv => kv.2) = [] then 4/10
          else max 0 (min 1
            (((p.check_digits.filterMap (fun kv => kv.2)).count true : ℚ) /
              ((p.check_digits.filterMap (fun kv => kv.2)).length : ℚ)
             + if pyStartsWith p.mrz_type "TD" then 1/10 else 0))) ∧
    (∀ lines : List String,
        match parse_mrz lines with
        | .ok r => 0 ≤ r.confidence ∧ r.confidence ≤ 1
        | .error _ => True) := by
  constructor
  · exact compute_confidence_formula
  · intro lines
    match lines with
    | [] => trivial
    | [a] => trivial
    | [a, b] =>
      have hstep : parse_mrz [a, b]
          = if pyStartsWith a "P<" || decide (40 ≤ a.length)
            then finish (parse_td3 [a, b]) else finish (parse_td2 [a, b]) := rfl
      rw [hstep]
      by_cases hc : (pyStartsWith a "P<" || decide (40 ≤ a.length)) = true
      · rw [if_pos hc]
        exact finish_conf_mem _
      · rw [if_neg hc]
        exact finish_conf_mem _
    | [a, b, c] => exact finish_conf_mem _
    | a :: b :: c :: d :: rest => trivial

end Mrz



